import Mathlib

/-!
Shallow embedding of the two scripts of the pr-system repository
(scripts/import_approvers.py and scripts/read_excel.py) and proofs of the
frozen claims about them.

Modelling conventions:
- Spreadsheet cells are modelled as Option String: none stands for an
  absent cell or a NaN produced by the pandas reader, some s for the cell
  text (for a numeric cell, s is the Python str() rendering of the value).
- Python floats are modelled by the inductive type PyF: a finite value is
  an exact rational; the special values inf, -inf and nan are explicit
  constructors.  IEEE rounding and overflow-to-infinity of huge decimal
  literals are not modelled; every concrete value appearing in the claims
  is exactly representable, so this does not affect any claim.
- String primitives (str.strip, str.lower, str.title, float()) are
  modelled for the ASCII fragment, which covers the data of this
  repository; each model is documented next to its definition.
- Exceptions are modelled with Except Unit: a .error value corresponds to
  a raised Python exception, and the try/except blocks of the source are
  modelled by matching on that Except value.
-/

/-- Whitespace characters stripped by Python str.strip and matched by the
regex class backslash-s (space, tab, newline, carriage return, vertical
tab, form feed), identified by their code points. -/
def isPySpace (c : Char) : Bool :=
  c.toNat = 32 || c.toNat = 9 || c.toNat = 10 || c.toNat = 13 ||
  c.toNat = 11 || c.toNat = 12

/-- ASCII model of Python str.lower applied to one character: an ASCII
uppercase letter (code 65 to 90) is shifted to the corresponding lowercase
letter; every other character is unchanged. -/
def pyLowerChar (c : Char) : Char :=
  if 65 ≤ c.toNat ∧ c.toNat ≤ 90 then Char.ofNat (c.toNat + 32) else c

/-- ASCII model of Python str.upper applied to one character. -/
def pyUpperChar (c : Char) : Char :=
  if 97 ≤ c.toNat ∧ c.toNat ≤ 122 then Char.ofNat (c.toNat - 32) else c

/-- Drop trailing characters satisfying isPySpace. -/
def dropTrail (l : List Char) : List Char :=
  (l.reverse.dropWhile isPySpace).reverse

/-- Model of Python str.strip on a character list: remove leading and
trailing whitespace. -/
def pyStripChars (l : List Char) : List Char :=
  dropTrail (l.dropWhile isPySpace)

/-- Model of Python str.strip on strings. -/
def pyStripS (s : String) : String :=
  ⟨pyStripChars s.data⟩

/-- Model of Python str.lower on strings (ASCII). -/
def pyLowerS (s : String) : String :=
  ⟨s.data.map pyLowerChar⟩

/-- Numeric value of a list of ASCII digits, most significant first. -/
def digitsToNat (ds : List Char) : Nat :=
  ds.foldl (fun n c => n * 10 + (c.toNat - 48)) 0

/-- Model of a Python float value: an exact rational, positive infinity,
negative infinity, or NaN. -/
inductive PyF where
  | finite (q : ℚ)
  | pinf
  | ninf
  | nan
deriving DecidableEq

deriving instance DecidableEq for Except

/-- Multiplication of a Python float by a positive natural constant
(used for the k and m multipliers): finite values scale exactly, the
special values are fixed by IEEE multiplication with a positive finite
number. -/
def pyMulPos (v : PyF) (n : ℕ) : PyF :=
  match v with
  | .finite q => .finite (q * n)
  | .pinf => .pinf
  | .ninf => .ninf
  | .nan => .nan

/-- Continuation of a digit group in a Python float literal: consumes
digits, where a single underscore is allowed only directly between two
digits (CPython numeric-literal rule).  Returns the digits consumed
(underscores removed) and the unconsumed remainder. -/
def udTail : List Char → List Char × List Char
  | [] => ([], [])
  | c :: cs =>
    if c.isDigit then
      let p := udTail cs
      (c :: p.1, p.2)
    else if c = '_' then
      match cs with
      | d :: cs2 =>
        if d.isDigit then
          let p := udTail cs2
          (d :: p.1, p.2)
        else ([], c :: cs)
      | [] => ([], [c])
    else ([], c :: cs)

/-- Parse a nonempty digit group (leading digit required, underscores
allowed between digits); none if the input does not start with a digit. -/
def takeUDigits (cs : List Char) : Option (List Char × List Char) :=
  match cs with
  | c :: rest =>
    if c.isDigit then
      let p := udTail rest
      some (c :: p.1, p.2)
    else none
  | [] => none

/-- Rational value of an integer digit part together with a fractional
digit part. -/
def intFracVal (ds fs : List Char) : ℚ :=
  (digitsToNat ds : ℚ) + (digitsToNat fs : ℚ) / (10 : ℚ) ^ fs.length

/-- Parse the mantissa of a Python float literal: digits, optionally
followed by a point and further digits, or a point followed by digits.
Returns the value and the unconsumed remainder. -/
def parseMantissa (cs : List Char) : Option (ℚ × List Char) :=
  match takeUDigits cs with
  | some (ds, rest) =>
    match rest with
    | '.' :: r2 =>
      match takeUDigits r2 with
      | some (fs, r3) => some (intFracVal ds fs, r3)
      | none => some ((digitsToNat ds : ℚ), r2)
    | _ => some ((digitsToNat ds : ℚ), rest)
  | none =>
    match cs with
    | '.' :: r2 =>
      match takeUDigits r2 with
      | some (fs, r3) => some (intFracVal [] fs, r3)
      | none => none
    | _ => none

/-- Leading optional sign of a Python float literal: a leading plus or
minus is consumed, and the Boolean records whether the value is negated.
Used for both the mantissa sign and the exponent sign. -/
def splitSign : List Char → Bool × List Char
  | '+' :: r => (false, r)
  | '-' :: r => (true, r)
  | l => (false, l)

/-- Model of the Python builtin float() on a character list (ASCII
fragment): strip whitespace, optional sign, then either one of the
keywords inf, infinity, nan (case-insensitive) or a decimal literal with
optional fraction and exponent.  Returns .error () where Python raises
ValueError.  Exact rational arithmetic stands in for IEEE doubles. -/
def pyFloatOfChars (raw : List Char) : Except Unit PyF :=
  let cs0 := pyStripChars raw
  let sgn := splitSign cs0
  let neg := sgn.1
  let cs := sgn.2
  let low := cs.map pyLowerChar
  if low = ['i', 'n', 'f'] ∨ low = ['i', 'n', 'f', 'i', 'n', 'i', 't', 'y'] then
    .ok (if neg then .ninf else .pinf)
  else if low = ['n', 'a', 'n'] then
    .ok .nan
  else
    match parseMantissa cs with
    | none => .error ()
    | some (q, rest) =>
      match rest with
      | [] => .ok (.finite (if neg then -q else q))
      | e :: r2 =>
        if e = 'e' ∨ e = 'E' then
          let esgn := splitSign r2
          match takeUDigits esgn.2 with
          | some (es, r4) =>
            if r4 = [] then
              let ev : Int :=
                if esgn.1 then -(digitsToNat es : Int) else (digitsToNat es : Int)
              .ok (.finite ((if neg then -q else q) * (10 : ℚ) ^ ev))
            else .error ()
          | none => .error ()
        else .error ()

/-- Model of re.sub applied with pattern caret-under-backslash-s-plus:
if the text starts with the word under followed by at least one
whitespace character, remove that prefix together with the whole
whitespace run; otherwise leave the text unchanged.  Mirrors line 40 of
import_approvers.py. -/
def stripUnder (cs : List Char) : List Char :=
  match cs with
  | 'u' :: 'n' :: 'd' :: 'e' :: 'r' :: rest =>
    match rest with
    | c :: _ => if isPySpace c then rest.dropWhile isPySpace else cs
    | [] => cs
  | _ => cs

/-- Model of re.search for the pattern backslash-d-plus: the first maximal
contiguous run of decimal digits in the text, or none. -/
def findDigitRun : List Char → Option (List Char)
  | [] => none
  | c :: cs =>
    if c.isDigit then some (c :: cs.takeWhile Char.isDigit)
    else findDigitRun cs

/-- Embedding of parse_approval_limit (import_approvers.py, lines 22-55).
An absent or NaN cell gives inf; otherwise the text is lowercased and
stripped, a leading under-qualifier is removed, commas are removed; if
the text contains k (resp. m) the text with every k (resp. m) removed is
passed to float() and scaled by 1000 (resp. 1000000), where float() may
raise; otherwise the first digit run, if any, is passed to float(), and
with no digit run the result is inf. -/
def parse_approval_limit (cell : Option String) : Except Unit PyF :=
  match cell with
  | none => .ok .pinf
  | some raw =>
    let s1 := pyStripChars (raw.data.map pyLowerChar)
    let s2 := stripUnder s1
    let s3 := s2.filter (fun c => c ≠ ',')
    if 'k' ∈ s3 then
      (pyFloatOfChars (s3.filter (fun c => c ≠ 'k'))).map (fun v => pyMulPos v 1000)
    else if 'm' ∈ s3 then
      (pyFloatOfChars (s3.filter (fun c => c ≠ 'm'))).map (fun v => pyMulPos v 1000000)
    else
      match findDigitRun s3 with
      | some ds => pyFloatOfChars ds
      | none => .ok .pinf

/-- Model of Python str.title on a character list (ASCII): a letter is
uppercased when the previous character is not a letter and lowercased
otherwise; non-letters are unchanged.  The Boolean argument records
whether the previous character was a letter. -/
def pyTitleGo : Bool → List Char → List Char
  | _, [] => []
  | prevAlpha, c :: rest =>
    (if c.isAlpha then (if prevAlpha then pyLowerChar c else pyUpperChar c) else c)
      :: pyTitleGo c.isAlpha rest

/-- Model of Python str.title on strings (ASCII). -/
def pyTitleS (s : String) : String :=
  ⟨pyTitleGo false s.data⟩

/-- Fallback display name derived from an email address, as built on
line 76 of import_approvers.py: the text before the first at-sign, with
each dot replaced by a space, in title case. -/
def derivedName (em : String) : String :=
  pyTitleS ⟨(em.data.takeWhile (fun c => c ≠ '@')).map
    (fun c => if c = '.' then ' ' else c)⟩

/-- Row of the Approver List sheet.  Each field is the cell of the
corresponding column (Email, Name, Department, Approval Limit,
Active Status (Y/N)); none models a NaN or missing cell. -/
structure Row where
  email : Option String
  name : Option String
  department : Option String
  approvalLimit : Option String
  activeStatus : Option String
deriving DecidableEq

/-- Approver record as assembled in read_approvers_from_excel
(lines 79-88 of import_approvers.py).  The id field of the source is a
fresh UUID, different on every run; it is not modelled. -/
structure Approver where
  name : String
  email : String
  role : String
  department : Option String
  isActive : Bool
  approvalLimit : PyF
deriving DecidableEq

/-- Embedding of one iteration of the row loop of
read_approvers_from_excel (lines 73-89): a row with an absent email is
skipped (ok none); otherwise the record is assembled, where a raised
parse failure from parse_approval_limit propagates (.error). -/
def processRow (r : Row) : Except Unit (Option Approver) :=
  match r.email with
  | none => .ok none
  | some em =>
    let name :=
      match r.name with
      | some n => n
      | none => derivedName em
    match parse_approval_limit r.approvalLimit with
    | .error e => .error e
    | .ok lim =>
      .ok (some {
        name := pyStripS name
        email := pyLowerS (pyStripS em)
        role := "APPROVER"
        department := r.department.map pyStripS
        isActive :=
          if (match r.activeStatus with
              | some v => pyLowerS v == "y"
              | none => false) then true else true
        approvalLimit := lim })

/-- Sequential processing of the rows of the Approver List sheet: rows
are processed in order, skipped rows contribute nothing, and the first
raised exception aborts the whole loop. -/
def processRows : List Row → Except Unit (List Approver)
  | [] => .ok []
  | r :: rs =>
    match processRow r with
    | .error e => .error e
    | .ok o =>
      match processRows rs with
      | .error e => .error e
      | .ok tl =>
        .ok (match o with
             | some a => a :: tl
             | none => tl)

/-- Workbook as seen by the importer: the set of sheet names that can be
read, and the rows of the Approver List sheet.  Reading a sheet whose
name is not listed raises. -/
structure Workbook where
  sheetNames : List String
  approverRows : List Row

/-- Reading a named sheet succeeds exactly when the workbook has a sheet
of that name (pd.read_excel with sheet_name raises otherwise). -/
def readSheetCheck (wb : Workbook) (name : String) : Except Unit Unit :=
  if name ∈ wb.sheetNames then .ok () else .error ()

/-- Embedding of get_approval_rules (lines 7-20): the Configuration
sheet is read inside a local try/except; on success the parsed rules are
printed and an empty rule set is returned, and on failure the error is
logged and an empty rule set is returned.  In both cases the caller
receives an empty rule set and no exception. -/
def get_approval_rules (wb : Workbook) : List (String × String) :=
  match readSheetCheck wb "Configuration" with
  | .ok _ => []
  | .error _ => []

/-- Embedding of read_approvers_from_excel (lines 57-99): the whole body
is wrapped in try/except.  get_approval_rules is called first (it never
raises, see get_approval_rules); then the Approver List sheet is read,
which raises if absent; then the rows are processed, where a row may
raise through parse_approval_limit.  Any raised exception is caught at
the top level and the empty list is returned. -/
def read_approvers_from_excel (wb : Workbook) : List Approver :=
  let _rules := get_approval_rules wb
  match readSheetCheck wb "Approver List" with
  | .error _ => []
  | .ok _ =>
    match processRows wb.approverRows with
    | .error _ => []
    | .ok l => l

/-- Replace every occurrence of one character by another (model of
Python str.replace with single-character pattern and single-character
replacement). -/
def replaceChar (a b : Char) (l : List Char) : List Char :=
  l.map (fun c => if c = a then b else c)

/-- Replace every ampersand by the three letters a n d (model of Python
str.replace applied with pattern ampersand and replacement and). -/
def replaceAmpAnd (l : List Char) : List Char :=
  l.flatMap (fun c => if c = '&' then ['a', 'n', 'd'] else [c])

/-- Embedding of clean_name (read_excel.py, lines 8-11): a NaN cell
gives the empty string; otherwise the text is stripped, lowercased, each
space and each slash is replaced by an underscore, and each ampersand by
the word and, in that order. -/
def clean_name (cell : Option String) : String :=
  match cell with
  | none => ""
  | some s =>
    ⟨replaceAmpAnd (replaceChar '/' '_' (replaceChar ' ' '_'
      ((pyStripChars s.data).map pyLowerChar)))⟩

/-- Slug derivation exactly as worded in the specification: the trimmed,
lowercased form of the name, with each space and each slash replaced by
an underscore and each ampersand replaced by the word and, as one
simultaneous character-by-character substitution.  This definition
follows the words of the specification and is compared with the source
definition clean_name in the claim about slug derivation. -/
def cleanNameSpec (s : String) : String :=
  ⟨((pyStripChars s.data).map pyLowerChar).flatMap (fun c =>
    if c = ' ' ∨ c = '/' then ['_']
    else if c = '&' then ['a', 'n', 'd']
    else [c])⟩

/-- Row of one of the reference sheets of read_excel.py.  The name field
holds the cell of the sheet's display-name column (Department Name,
Category, Site Name, Expense Type, Vehicle Name, Vendor Name or
Organization); code and registration hold the cells of the Code and
Registration Status columns where the sheet has them; active holds the
cell of the active-status column (Active Status (Y/N), Active (Y/N) or
Approved Status (Y/N)). -/
structure SheetRow where
  name : Option String
  code : Option String
  registration : Option String
  active : Option String
deriving DecidableEq

/-- Reference entry as described by one of the per-sheet mappers of
read_excel.py (lines 21-50).  The source renders each entry directly as
a TypeScript object literal; this structure holds the field values
interpolated into that literal.  Fields a given sheet does not emit are
none. -/
structure RefEntry where
  id : String
  name : String
  code : Option String
  registration : Option String
  organization : Option String
  isActive : Bool
deriving DecidableEq

/-- Python str() of a cell as interpolated by an f-string: a NaN cell
renders as the text nan. -/
def strOfCell (cell : Option String) : String :=
  match cell with
  | some s => s
  | none => "nan"

/-- Department List mapper (read_excel.py, lines 22-25): rows with a
present Department Name yield an entry; isActive is the Python value of
row cell == Y. -/
def mkDepartment (r : SheetRow) : Option RefEntry :=
  match r.name with
  | some nm =>
    some { id := clean_name (some nm), name := nm, code := none,
           registration := none, organization := none,
           isActive := decide (r.active = some "Y") }
  | none => none

/-- Project Categories mapper (lines 26-29), keyed on the Category
column, active column Active (Y/N). -/
def mkProjectCategory (r : SheetRow) : Option RefEntry :=
  match r.name with
  | some nm =>
    some { id := clean_name (some nm), name := nm, code := none,
           registration := none, organization := none,
           isActive := decide (r.active = some "Y") }
  | none => none

/-- Site List mapper (lines 30-33): the Code cell is interpolated
without a NaN guard, so an absent code renders as the text nan; the
organization field is the constant 1PWR LESOTHO. -/
def mkSite (r : SheetRow) : Option RefEntry :=
  match r.name with
  | some nm =>
    some { id := clean_name (some nm), name := nm,
           code := some (strOfCell r.code), registration := none,
           organization := some "1PWR LESOTHO",
           isActive := decide (r.active = some "Y") }
  | none => none

/-- Expense Type mapper (lines 34-37): the code column (whose header
carries a trailing blank) is guarded by pd.notna and defaults to the
empty string. -/
def mkExpenseType (r : SheetRow) : Option RefEntry :=
  match r.name with
  | some nm =>
    some { id := clean_name (some nm), name := nm,
           code := some (match r.code with | some c => c | none => ""),
           registration := none, organization := none,
           isActive := decide (r.active = some "Y") }
  | none => none

/-- Vehicle List mapper (lines 38-41): the Registration Status cell is
guarded by pd.notna and defaults to the empty string; the organization
field is the constant 1PWR LESOTHO. -/
def mkVehicle (r : SheetRow) : Option RefEntry :=
  match r.name with
  | some nm =>
    some { id := clean_name (some nm), name := nm, code := none,
           registration := some (match r.registration with
                                 | some s => s
                                 | none => ""),
           organization := some "1PWR LESOTHO",
           isActive := decide (r.active = some "Y") }
  | none => none

/-- Vendor List mapper (lines 42-45): keyed on Vendor Name, active
column Approved Status (Y/N), organization constant 1PWR LESOTHO. -/
def mkVendor (r : SheetRow) : Option RefEntry :=
  match r.name with
  | some nm =>
    some { id := clean_name (some nm), name := nm, code := none,
           registration := none, organization := some "1PWR LESOTHO",
           isActive := decide (r.active = some "Y") }
  | none => none

/-- Org List mapper (lines 46-49), keyed on the Organization column. -/
def mkOrganization (r : SheetRow) : Option RefEntry :=
  match r.name with
  | some nm =>
    some { id := clean_name (some nm), name := nm, code := none,
           registration := none, organization := none,
           isActive := decide (r.active = some "Y") }
  | none => none

/-- Rows-to-entries comprehension shared by every sheet mapper: rows
whose key column is NaN are skipped, the rest are mapped in order. -/
def processSheet (mk : SheetRow → Option RefEntry) (rows : List SheetRow) :
    List RefEntry :=
  rows.filterMap mk

theorem isDigit_toNat (c : Char) : c.isDigit = true ↔ 48 ≤ c.toNat ∧ c.toNat ≤ 57 := by
  simp [Char.isDigit, Char.le_def, UInt32.le_def, BitVec.le_def, Char.toNat, UInt32.toNat]

theorem digit_not_space (c : Char) (h : c.isDigit = true) : isPySpace c = false := by
  rw [isDigit_toNat] at h
  simp [isPySpace]
  omega

theorem toNat_pyLowerChar (c : Char) :
    (pyLowerChar c).toNat =
      if 65 ≤ c.toNat ∧ c.toNat ≤ 90 then c.toNat + 32 else c.toNat := by
  unfold pyLowerChar
  split
  · rename_i h
    unfold Char.ofNat
    split
    · rfl
    · rename_i h2
      exfalso
      apply h2
      left
      omega
  · rfl

theorem isPySpace_toNat (c : Char) :
    isPySpace c = true ↔
      (c.toNat = 32 ∨ c.toNat = 9 ∨ c.toNat = 10 ∨ c.toNat = 13 ∨
       c.toNat = 11 ∨ c.toNat = 12) := by
  simp [isPySpace]
  tauto

theorem pyLowerChar_not_upper (c : Char) :
    ¬(65 ≤ (pyLowerChar c).toNat ∧ (pyLowerChar c).toNat ≤ 90) := by
  rw [toNat_pyLowerChar]
  split <;> omega

theorem isPySpace_pyLowerChar_false (c : Char) (h : isPySpace c = false) :
    isPySpace (pyLowerChar c) = false := by
  rw [← Bool.not_eq_true] at h ⊢
  rw [isPySpace_toNat] at h ⊢
  rw [toNat_pyLowerChar]
  split <;> omega

theorem dropWhile_head_not (p : Char → Bool) (l : List Char) (c : Char)
    (h : (l.dropWhile p).head? = some c) : p c = false := by
  induction l with
  | nil => simp at h
  | cons a as ih =>
    by_cases hp : p a
    · rw [List.dropWhile_cons_of_pos hp] at h
      exact ih h
    · rw [List.dropWhile_cons_of_neg hp] at h
      simp only [List.head?_cons, Option.some.injEq] at h
      subst h
      simpa using hp

theorem dropWhile_eq_self_of_head (p : Char → Bool) (l : List Char)
    (h : ∀ c, l.head? = some c → p c = false) : l.dropWhile p = l := by
  cases l with
  | nil => rfl
  | cons a as => rw [List.dropWhile_cons_of_neg (by simp [h a rfl])]

theorem pyStripChars_head (l : List Char) (c : Char)
    (h : (pyStripChars l).head? = some c) : isPySpace c = false := by
  unfold pyStripChars dropTrail at h
  rw [List.head?_reverse] at h
  obtain ⟨t, ht⟩ :=
    List.dropWhile_suffix (l := (l.dropWhile isPySpace).reverse) (p := isPySpace)
  have hne : (l.dropWhile isPySpace).reverse.dropWhile isPySpace ≠ [] := by
    intro hnil
    rw [hnil] at h
    simp at h
  have h2 := List.getLast?_append_of_ne_nil t hne
  rw [ht] at h2
  rw [List.getLast?_reverse] at h2
  rw [h] at h2
  exact dropWhile_head_not isPySpace l c h2

theorem pyStripChars_last (l : List Char) (c : Char)
    (h : (pyStripChars l).getLast? = some c) : isPySpace c = false := by
  unfold pyStripChars dropTrail at h
  rw [List.getLast?_reverse] at h
  exact dropWhile_head_not _ _ _ h

theorem udTail_digits (l : List Char) (h : ∀ c ∈ l, c.isDigit = true) :
    udTail l = (l, []) := by
  induction l with
  | nil => rfl
  | cons a as ih =>
    have ha : a.isDigit = true := h a (List.mem_cons_self a as)
    unfold udTail
    rw [if_pos ha]
    rw [ih (fun c hc => h c (List.mem_cons_of_mem a hc))]

theorem takeUDigits_digits (l : List Char) (h0 : l ≠ [])
    (h : ∀ c ∈ l, c.isDigit = true) : takeUDigits l = some (l, []) := by
  cases l with
  | nil => exact absurd rfl h0
  | cons a as =>
    have ha : a.isDigit = true := h a (List.mem_cons_self a as)
    show (if a.isDigit = true then
            let p := udTail as
            some (a :: p.1, p.2)
          else none) = some (a :: as, [])
    rw [if_pos ha]
    rw [udTail_digits as (fun c hc => h c (List.mem_cons_of_mem a hc))]

theorem parseMantissa_digits (l : List Char) (h0 : l ≠ [])
    (h : ∀ c ∈ l, c.isDigit = true) :
    parseMantissa l = some ((digitsToNat l : ℚ), []) := by
  unfold parseMantissa
  rw [takeUDigits_digits l h0 h]

theorem digit_toNat_facts (c : Char) (h : c.isDigit = true) :
    c.toNat ≠ 43 ∧ c.toNat ≠ 45 ∧ c.toNat ≠ 105 ∧ c.toNat ≠ 110 := by
  rw [isDigit_toNat] at h
  omega

theorem dropWhile_digits (l : List Char) (h : ∀ c ∈ l, c.isDigit = true) :
    l.dropWhile isPySpace = l := by
  apply dropWhile_eq_self_of_head
  intro c hc
  exact digit_not_space c (h c (List.mem_of_mem_head? hc))

theorem pyStripChars_digits (l : List Char) (h : ∀ c ∈ l, c.isDigit = true) :
    pyStripChars l = l := by
  unfold pyStripChars dropTrail
  rw [dropWhile_digits l h]
  rw [dropWhile_digits l.reverse (fun c hc => h c (List.mem_reverse.mp hc))]
  exact List.reverse_reverse l

theorem ne_of_toNat_ne (c d : Char) (h : c.toNat ≠ d.toNat) : c ≠ d := by
  intro he
  exact h (he ▸ rfl)

theorem pyLowerChar_digit (c : Char) (h : c.isDigit = true) : pyLowerChar c = c := by
  rw [isDigit_toNat] at h
  unfold pyLowerChar
  rw [if_neg (by omega)]

theorem splitSign_not_sign (a : Char) (as : List Char) (h1 : a ≠ '+')
    (h2 : a ≠ '-') : splitSign (a :: as) = (false, a :: as) := by
  unfold splitSign
  split
  · rename_i heq
    injection heq with heq1 _
    exact absurd heq1 h1
  · rename_i heq
    injection heq with heq1 _
    exact absurd heq1 h2
  · rfl

theorem pyFloatOfChars_digits (l : List Char) (h0 : l ≠ [])
    (h : ∀ c ∈ l, c.isDigit = true) :
    pyFloatOfChars l = .ok (.finite (digitsToNat l)) := by
  cases l with
  | nil => exact absurd rfl h0
  | cons a as =>
    have ha : a.isDigit = true := h a (List.mem_cons_self a as)
    have hfacts := digit_toNat_facts a ha
    have hne43 : a ≠ '+' := ne_of_toNat_ne a '+' (by simpa using hfacts.1)
    have hne45 : a ≠ '-' := ne_of_toNat_ne a '-' (by simpa using hfacts.2.1)
    have hnei : a ≠ 'i' := ne_of_toNat_ne a 'i' (by simpa using hfacts.2.2.1)
    have hnen : a ≠ 'n' := ne_of_toNat_ne a 'n' (by simpa using hfacts.2.2.2)
    have hlowa : pyLowerChar a = a := pyLowerChar_digit a ha
    unfold pyFloatOfChars
    rw [pyStripChars_digits _ h]
    simp only [splitSign_not_sign a as hne43 hne45]
    rw [if_neg ?hinf]
    case hinf =>
      intro hor
      rcases hor with h1 | h1 <;>
        (rw [List.map_cons, hlowa] at h1
         injection h1 with hh _)
      · exact hnei hh
      · exact hnei hh
    rw [if_neg ?hnan]
    case hnan =>
      intro h1
      rw [List.map_cons, hlowa] at h1
      injection h1 with hh _
      exact hnen hh
    rw [parseMantissa_digits (a :: as) h0 h]
    rfl

theorem space_not_digit (c : Char) (h : isPySpace c = true) : c.isDigit = false := by
  rw [isPySpace_toNat] at h
  cases hd : c.isDigit with
  | false => rfl
  | true =>
    exfalso
    have h2 := (isDigit_toNat c).mp hd
    omega

theorem findDigitRun_append_nondigit (a b : List Char)
    (h : ∀ c ∈ a, c.isDigit = false) :
    findDigitRun (a ++ b) = findDigitRun b := by
  induction a with
  | nil => rfl
  | cons x xs ih =>
    have hx : x.isDigit = false := h x (List.mem_cons_self x xs)
    rw [List.cons_append]
    show (if x.isDigit = true then some (x :: (xs ++ b).takeWhile Char.isDigit)
          else findDigitRun (xs ++ b)) = findDigitRun b
    rw [hx]
    simp only [Bool.false_eq_true, if_false]
    exact ih (fun c hc => h c (List.mem_cons_of_mem x hc))

theorem findDigitRun_eq_none (l : List Char) (h : ∀ c ∈ l, c.isDigit = false) :
    findDigitRun l = none := by
  have h2 := findDigitRun_append_nondigit l [] h
  rw [List.append_nil] at h2
  rw [h2]
  rfl

theorem findDigitRun_sound (l ds : List Char) (h : findDigitRun l = some ds) :
    ds ≠ [] ∧ ∀ c ∈ ds, c.isDigit = true := by
  induction l with
  | nil => simp [findDigitRun] at h
  | cons a as ih =>
    unfold findDigitRun at h
    by_cases ha : a.isDigit = true
    · rw [ha] at h
      simp only [if_true] at h
      injection h with h
      constructor
      · rw [← h]
        simp
      · intro c hc
        rw [← h] at hc
        rcases List.mem_cons.mp hc with hc | hc
        · rw [hc]; exact ha
        · exact List.mem_takeWhile_imp hc
    · rw [Bool.not_eq_true] at ha
      rw [ha] at h
      simp only [Bool.false_eq_true, if_false] at h
      exact ih h

theorem stripUnder_sublist (l : List Char) : List.Sublist (stripUnder l) l := by
  unfold stripUnder
  split
  · split
    · split
      · refine List.Sublist.trans (List.dropWhile_suffix isPySpace).sublist ?_
        exact (((((List.Sublist.refl _).cons _).cons _).cons _).cons _).cons _
      · exact List.Sublist.refl _
    · exact List.Sublist.refl _
  · exact List.Sublist.refl _

theorem findDigitRun_filter_stripUnder (l : List Char) :
    findDigitRun ((stripUnder l).filter (fun c => c ≠ ',')) =
    findDigitRun (l.filter (fun c => c ≠ ',')) := by
  unfold stripUnder
  split
  · split
    · split
      · rename_i hd tl hsp
        have h1 : findDigitRun
            (((hd :: tl).takeWhile isPySpace).filter (fun c => c ≠ ',') ++
             ((hd :: tl).dropWhile isPySpace).filter (fun c => c ≠ ',')) =
            findDigitRun (((hd :: tl).dropWhile isPySpace).filter (fun c => c ≠ ',')) :=
          findDigitRun_append_nondigit _ _
            (fun c hc => space_not_digit c
              (List.mem_takeWhile_imp (List.mem_of_mem_filter hc)))
        rw [← List.filter_append, List.takeWhile_append_dropWhile] at h1
        rw [show ('u' :: 'n' :: 'd' :: 'e' :: 'r' :: hd :: tl) =
              ['u', 'n', 'd', 'e', 'r'] ++ (hd :: tl) from rfl]
        rw [List.filter_append]
        rw [show List.filter (fun c => decide (c ≠ ',')) ['u', 'n', 'd', 'e', 'r'] =
              ['u', 'n', 'd', 'e', 'r'] from by decide]
        rw [findDigitRun_append_nondigit ['u', 'n', 'd', 'e', 'r'] _ (by decide)]
        exact h1.symm
      · rfl
    · rfl
  · rfl

/-- Cleaned limit text exactly as the claims describe it: lowercased,
stripped, commas removed (without the removal of a leading
under-qualifier, which is proved irrelevant for the branch tests and the
digit search). -/
def limitText (raw : String) : List Char :=
  (pyStripChars (raw.data.map pyLowerChar)).filter (fun c => c ≠ ',')

theorem mem_stripUnder_filter (l : List Char) (c : Char)
    (hc : c ∈ (stripUnder l).filter (fun x => x ≠ ',')) :
    c ∈ l.filter (fun x => x ≠ ',') :=
  (List.Sublist.filter _ (stripUnder_sublist l)).subset hc

theorem parse_limit_no_km (raw : String)
    (hk : 'k' ∉ limitText raw) (hm : 'm' ∉ limitText raw) :
    parse_approval_limit (some raw) =
      (match findDigitRun (limitText raw) with
       | some ds => .ok (.finite (digitsToNat ds))
       | none => .ok .pinf) := by
  have hk3 : 'k' ∉ (stripUnder (pyStripChars (raw.data.map pyLowerChar))).filter
      (fun c => c ≠ ',') := fun hc => hk (mem_stripUnder_filter _ _ hc)
  have hm3 : 'm' ∉ (stripUnder (pyStripChars (raw.data.map pyLowerChar))).filter
      (fun c => c ≠ ',') := fun hc => hm (mem_stripUnder_filter _ _ hc)
  unfold parse_approval_limit
  simp only [hk3, hm3, if_false]
  rw [findDigitRun_filter_stripUnder]
  unfold limitText
  cases hds : findDigitRun ((pyStripChars (raw.data.map pyLowerChar)).filter
      (fun c => c ≠ ',')) with
  | none => rfl
  | some ds =>
    obtain ⟨hne, hdig⟩ := findDigitRun_sound _ _ hds
    exact pyFloatOfChars_digits ds hne hdig

theorem replace_flatMap (l : List Char) :
    replaceAmpAnd (replaceChar '/' '_' (replaceChar ' ' '_' l)) =
    l.flatMap (fun c =>
      if c = ' ' ∨ c = '/' then ['_']
      else if c = '&' then ['a', 'n', 'd'] else [c]) := by
  induction l with
  | nil => rfl
  | cons a as ih =>
    unfold replaceChar replaceAmpAnd at ih ⊢
    simp only [List.map_cons, List.flatMap_cons]
    rw [ih]
    by_cases h1 : a = ' '
    · subst h1
      rfl
    · by_cases h2 : a = '/'
      · subst h2
        rfl
      · by_cases h3 : a = '&'
        · subst h3
          rfl
        · simp [h1, h2, h3]

/-- Boolean check that a string has no ASCII uppercase letter. -/
def noUpperStr (s : String) : Bool :=
  s.data.all (fun c => decide (¬(65 ≤ c.toNat ∧ c.toNat ≤ 90)))

/-- Boolean check that an optional boundary character is not whitespace. -/
def edgeNotSpace (o : Option Char) : Bool :=
  match o with
  | some c => !(isPySpace c)
  | none => true

/-- Boolean check that a string carries no leading and no trailing
whitespace. -/
def isTrimmedStr (s : String) : Bool :=
  edgeNotSpace s.data.head? && edgeNotSpace s.data.getLast?

theorem noUpperStr_lower_strip (em : String) :
    noUpperStr (pyLowerS (pyStripS em)) = true := by
  unfold noUpperStr pyLowerS pyStripS
  rw [List.all_eq_true]
  intro c hc
  obtain ⟨d, _, hd2⟩ := List.mem_map.mp hc
  rw [← hd2]
  exact decide_eq_true (pyLowerChar_not_upper d)

theorem isTrimmedStr_lower_strip (em : String) :
    isTrimmedStr (pyLowerS (pyStripS em)) = true := by
  unfold isTrimmedStr pyLowerS pyStripS
  rw [Bool.and_eq_true]
  constructor
  · show edgeNotSpace ((pyStripChars em.data).map pyLowerChar).head? = true
    rw [List.head?_map]
    cases hh : (pyStripChars em.data).head? with
    | none => rfl
    | some c =>
      show (!(isPySpace (pyLowerChar c))) = true
      rw [isPySpace_pyLowerChar_false c (pyStripChars_head em.data c hh)]
      rfl
  · show edgeNotSpace ((pyStripChars em.data).map pyLowerChar).getLast? = true
    rw [List.getLast?_map]
    cases hh : (pyStripChars em.data).getLast? with
    | none => rfl
    | some c =>
      show (!(isPySpace (pyLowerChar c))) = true
      rw [isPySpace_pyLowerChar_false c (pyStripChars_last em.data c hh)]
      rfl

theorem processRow_ok_elim (r : Row) (a : Approver)
    (h : processRow r = .ok (some a)) :
    ∃ em lim, r.email = some em ∧
      parse_approval_limit r.approvalLimit = .ok lim ∧
      a = { name := pyStripS (match r.name with
                              | some n => n
                              | none => derivedName em)
            email := pyLowerS (pyStripS em)
            role := "APPROVER"
            department := r.department.map pyStripS
            isActive := if (match r.activeStatus with
                            | some v => pyLowerS v == "y"
                            | none => false) then true else true
            approvalLimit := lim } := by
  unfold processRow at h
  cases he : r.email with
  | none =>
    rw [he] at h
    simp at h
  | some em =>
    rw [he] at h
    cases hp : parse_approval_limit r.approvalLimit with
    | error e =>
      rw [hp] at h
      simp at h
    | ok lim =>
      rw [hp] at h
      refine ⟨em, lim, rfl, rfl, ?_⟩
      simp only [Except.ok.injEq, Option.some.injEq] at h
      exact h.symm

theorem processRow_skip_iff (r : Row) (o : Option Approver)
    (h : processRow r = .ok o) : o.isSome = r.email.isSome := by
  unfold processRow at h
  cases he : r.email with
  | none =>
    rw [he] at h
    simp only [Except.ok.injEq] at h
    rw [← h]
    rfl
  | some em =>
    rw [he] at h
    cases hp : parse_approval_limit r.approvalLimit with
    | error e =>
      rw [hp] at h
      simp at h
    | ok lim =>
      rw [hp] at h
      simp only [Except.ok.injEq] at h
      rw [← h]
      rfl

theorem processRows_length (rows : List Row) (l : List Approver)
    (h : processRows rows = .ok l) :
    l.length = (rows.filter (fun r => r.email.isSome)).length := by
  induction rows generalizing l with
  | nil =>
    unfold processRows at h
    simp only [Except.ok.injEq] at h
    rw [← h]
    rfl
  | cons r rs ih =>
    unfold processRows at h
    cases hr : processRow r with
    | error e =>
      rw [hr] at h
      simp at h
    | ok o =>
      rw [hr] at h
      cases ht : processRows rs with
      | error e =>
        rw [ht] at h
        simp at h
      | ok tl =>
        rw [ht] at h
        simp only [Except.ok.injEq] at h
        have hskip := processRow_skip_iff r o hr
        rw [List.filter_cons]
        cases he : r.email.isSome with
        | false =>
          rw [he] at hskip
          cases o with
          | some a => simp at hskip
          | none =>
            simp only [Bool.false_eq_true, if_false]
            rw [← h]
            exact ih tl ht
        | true =>
          rw [he] at hskip
          cases o with
          | none => simp at hskip
          | some a =>
            simp only [if_true]
            rw [← h]
            simp only [List.length_cons]
            rw [ih tl ht]

theorem processRows_ordered (rows : List Row) (l : List Approver)
    (h : processRows rows = .ok l) :
    l = rows.filterMap (fun r =>
      match processRow r with
      | .ok o => o
      | .error _ => none) := by
  induction rows generalizing l with
  | nil =>
    unfold processRows at h
    simp only [Except.ok.injEq] at h
    rw [← h]
    rfl
  | cons r rs ih =>
    unfold processRows at h
    cases hr : processRow r with
    | error e =>
      rw [hr] at h
      simp at h
    | ok o =>
      rw [hr] at h
      cases ht : processRows rs with
      | error e =>
        rw [ht] at h
        simp at h
      | ok tl =>
        rw [ht] at h
        simp only [Except.ok.injEq] at h
        rw [List.filterMap_cons, hr]
        cases o with
        | none =>
          rw [← h]
          exact ih tl ht
        | some a =>
          rw [← h, ih tl ht]

/-- Claim C1: the approval-limit parser satisfies the test vector of the
specification: an absent or NaN cell gives the unlimited sentinel
(infinity), "1,000" gives 1000, "1k" gives 1000, "2.5M" gives 2500000,
"under 500" gives 500, and "garbage" gives the unlimited sentinel. -/
theorem claim_C1_parse_limit_test_vector :
    parse_approval_limit none = .ok .pinf ∧
    parse_approval_limit (some "1,000") = .ok (.finite 1000) ∧
    parse_approval_limit (some "1k") = .ok (.finite 1000) ∧
    parse_approval_limit (some "2.5M") = .ok (.finite 2500000) ∧
    parse_approval_limit (some "under 500") = .ok (.finite 500) ∧
    parse_approval_limit (some "garbage") = .ok .pinf := by
  refine ⟨rfl, by decide, ?_, ?_, by decide, by decide⟩
  · have h : parse_approval_limit (some "1k") =
        .ok (.finite ((digitsToNat ['1'] : ℚ) * ((1000 : ℕ) : ℚ))) := rfl
    rw [h, show digitsToNat ['1'] = 1 from rfl]
    norm_num
  · have h : parse_approval_limit (some "2.5M") =
        .ok (.finite (intFracVal ['2'] ['5'] * ((1000000 : ℕ) : ℚ))) := rfl
    rw [h]
    rw [show intFracVal ['2'] ['5'] = 2 + 5 / 10 ^ 1 by
      rw [intFracVal, show digitsToNat ['2'] = 2 from rfl,
          show digitsToNat ['5'] = 5 from rfl]
      norm_num]
    norm_num

/-- Claim C2 counterexample: the input "-1k" is accepted by
parse_approval_limit and yields the finite negative value -1000, so a
returned approvalLimit is not always the sentinel or a non-negative
number: the k branch passes the signed remainder to float() unchecked. -/
theorem claim_C2_counterexample :
    parse_approval_limit (some "-1k") = .ok (.finite (-1000)) ∧
    (-1000 : ℚ) < 0 := by
  constructor
  · have h : parse_approval_limit (some "-1k") =
        .ok (.finite (-(digitsToNat ['1'] : ℚ) * ((1000 : ℕ) : ℚ))) := rfl
    rw [h, show digitsToNat ['1'] = 1 from rfl]
    norm_num
  · norm_num

/-- Claim C2 as amended: on every input whose cleaned text (lowercased,
stripped, commas removed) contains neither k nor m, parse_approval_limit
returns the unlimited sentinel or a finite non-negative number; the k and
m branches can instead return any float() result scaled, including
negative values such as -1000 for "-1k".  For every produced record the
email is lowercase and trimmed. -/
theorem claim_C2_amended :
    (∀ raw : String, 'k' ∉ limitText raw → 'm' ∉ limitText raw →
        parse_approval_limit (some raw) = .ok .pinf ∨
        ∃ q : ℚ, 0 ≤ q ∧ parse_approval_limit (some raw) = .ok (.finite q)) ∧
    (∀ (r : Row) (a : Approver), processRow r = .ok (some a) →
        noUpperStr a.email = true ∧ isTrimmedStr a.email = true) := by
  constructor
  · intro raw hk hm
    rw [parse_limit_no_km raw hk hm]
    cases hds : findDigitRun (limitText raw) with
    | none => exact Or.inl rfl
    | some ds =>
      refine Or.inr ⟨(digitsToNat ds : ℚ), by positivity, rfl⟩
  · intro r a h
    obtain ⟨em, lim, _, _, ha⟩ := processRow_ok_elim r a h
    rw [ha]
    exact ⟨noUpperStr_lower_strip em, isTrimmedStr_lower_strip em⟩

/-- Claim C2 witness: the amended statement applied to the concrete limit
text "x500" and to a concrete row with email " A.B@x.COM ". -/
theorem claim_C2_witness :
    (parse_approval_limit (some "x500") = .ok .pinf ∨
     ∃ q : ℚ, 0 ≤ q ∧ parse_approval_limit (some "x500") = .ok (.finite q)) ∧
    (noUpperStr "a.b@x.com" = true ∧ isTrimmedStr "a.b@x.com" = true) := by
  constructor
  · exact claim_C2_amended.1 "x500" (by decide) (by decide)
  · exact claim_C2_amended.2
      { email := some " A.B@x.COM ", name := some "Bob", department := none,
        approvalLimit := none, activeStatus := none }
      { name := "Bob", email := "a.b@x.com", role := "APPROVER",
        department := none, isActive := true, approvalLimit := .pinf }
      (by decide)

/-- Claim C3: non-blank limit text outside the recognized patterns (no k,
no m, no digit anywhere in the cleaned text) falls back to the unlimited
sentinel, while the input "1k-2k" takes the k branch and raises a parse
failure instead of falling back. -/
theorem claim_C3_unrecognized_fallback_and_k_raise :
    (∀ raw : String, 'k' ∉ limitText raw → 'm' ∉ limitText raw →
        (∀ c ∈ limitText raw, c.isDigit = false) →
        parse_approval_limit (some raw) = .ok .pinf) ∧
    parse_approval_limit (some "1k-2k") = .error () := by
  constructor
  · intro raw hk hm hd
    rw [parse_limit_no_km raw hk hm, findDigitRun_eq_none _ hd]
  · decide

/-- Claim C3 witness: the fallback part applied to the concrete input
"garbage". -/
theorem claim_C3_witness :
    parse_approval_limit (some "garbage") = .ok .pinf :=
  claim_C3_unrecognized_fallback_and_k_raise.1 "garbage"
    (by decide) (by decide) (by decide)

/-- Claim C4 counterexample: a row whose name cell is the blank text
consisting of one space is present but blank, so the claim says the name
is derived from the email local part (here John Doe); the code instead
uses the blank cell, and the record name is the empty string. -/
theorem claim_C4_counterexample :
    processRow { email := some "john.doe@x.com", name := some " ",
                 department := none, approvalLimit := none,
                 activeStatus := none } =
      .ok (some { name := "", email := "john.doe@x.com", role := "APPROVER",
                  department := none, isActive := true,
                  approvalLimit := .pinf }) ∧
    pyStripS " " = "" ∧
    pyStripS (derivedName "john.doe@x.com") = "John Doe" ∧
    ("" : String) ≠ "John Doe" := by
  refine ⟨by decide, by decide, by decide, by decide⟩

/-- Claim C4 as amended: the record name is the trimmed name cell
whenever that cell is present (not NaN), even when it is blank; only when
the cell is absent is the name derived from the email local part (text
before the at-sign, dots to spaces, title case), then trimmed. -/
theorem claim_C4_amended (r : Row) (em : String) (a : Approver)
    (he : r.email = some em) (h : processRow r = .ok (some a)) :
    a.name = pyStripS (match r.name with
                       | some n => n
                       | none => derivedName em) := by
  obtain ⟨em2, lim, he2, _, ha⟩ := processRow_ok_elim r a h
  rw [he] at he2
  injection he2 with he2
  rw [ha, ← he2]

/-- Claim C4 witness: the amended name rule applied to a concrete row
with an absent name cell. -/
theorem claim_C4_witness :
    ({ name := "No Name", email := "no.name@y.z", role := "APPROVER",
       department := none, isActive := true,
       approvalLimit := PyF.pinf } : Approver).name =
      pyStripS (match ({ email := some "no.name@y.z", name := none,
                         department := none, approvalLimit := none,
                         activeStatus := none } : Row).name with
                | some n => n
                | none => derivedName "no.name@y.z") :=
  claim_C4_amended
    { email := some "no.name@y.z", name := none, department := none,
      approvalLimit := none, activeStatus := none }
    "no.name@y.z" _ rfl (by decide)

/-- Claim C5: every produced approver record has isActive true, whatever
the Active Status cell holds: the conditional of line 85 yields true in
both branches. -/
theorem claim_C5_isActive_always_true (r : Row) (a : Approver)
    (h : processRow r = .ok (some a)) : a.isActive = true := by
  obtain ⟨em, lim, _, _, ha⟩ := processRow_ok_elim r a h
  rw [ha]
  exact ite_self true

/-- Claim C5 witness: a concrete row whose Active Status cell is N still
yields an active record. -/
theorem claim_C5_witness :
    ({ name := "Ann", email := "c@d.e", role := "APPROVER",
       department := none, isActive := true,
       approvalLimit := PyF.pinf } : Approver).isActive = true :=
  claim_C5_isActive_always_true
    { email := some "c@d.e", name := some "Ann", department := none,
      approvalLimit := none, activeStatus := some "N" }
    _ (by decide)

/-- Claim C6 counterexample: a row whose Email cell is the blank text
consisting of one space is present but blank, so the claim says no record
is produced; the code checks only pd.notna and produces a record, whose
email is the empty string. -/
theorem claim_C6_counterexample :
    processRow { email := some " ", name := none, department := none,
                 approvalLimit := none, activeStatus := none } =
      .ok (some { name := "", email := "", role := "APPROVER",
                  department := none, isActive := true,
                  approvalLimit := .pinf }) ∧
    pyStripS " " = "" := by
  exact ⟨by decide, by decide⟩

/-- Claim C6 as amended: a row produces a record exactly when its Email
cell is present (not NaN), even when it is blank text; and whenever the
row loop completes and an output array is serialized, that array has
exactly one record per present-email row and equals the in-order list of
the per-row results, so the records appear in row order. -/
theorem claim_C6_amended :
    (∀ (r : Row) (o : Option Approver), processRow r = .ok o →
        o.isSome = r.email.isSome) ∧
    (∀ (rows : List Row) (l : List Approver), processRows rows = .ok l →
        l.length = (rows.filter (fun r => r.email.isSome)).length ∧
        l = rows.filterMap (fun r =>
          match processRow r with
          | .ok o => o
          | .error _ => none)) :=
  ⟨processRow_skip_iff,
   fun rows l h => ⟨processRows_length rows l h, processRows_ordered rows l h⟩⟩

/-- Claim C6 witness: the amended statement applied to a concrete
two-row sheet with one absent email. -/
theorem claim_C6_witness :
    ((some { name := "Bob", email := "a@b.c", role := "APPROVER",
             department := none, isActive := true,
             approvalLimit := PyF.pinf } : Option Approver).isSome =
      (some "a@b.c" : Option String).isSome) ∧
    (([{ name := "Bob", email := "a@b.c", role := "APPROVER",
         department := none, isActive := true,
         approvalLimit := PyF.pinf }] : List Approver).length =
      (([{ email := some "a@b.c", name := some "Bob", department := none,
           approvalLimit := none, activeStatus := none },
         { email := none, name := some "Ghost", department := none,
           approvalLimit := none, activeStatus := none }] :
          List Row).filter (fun r => r.email.isSome)).length ∧
     ([{ name := "Bob", email := "a@b.c", role := "APPROVER",
         department := none, isActive := true,
         approvalLimit := PyF.pinf }] : List Approver) =
      ([{ email := some "a@b.c", name := some "Bob", department := none,
          approvalLimit := none, activeStatus := none },
        { email := none, name := some "Ghost", department := none,
          approvalLimit := none, activeStatus := none }] :
         List Row).filterMap (fun r =>
        match processRow r with
        | .ok o => o
        | .error _ => none)) := by
  constructor
  · exact claim_C6_amended.1
      { email := some "a@b.c", name := some "Bob", department := none,
        approvalLimit := none, activeStatus := none } _ (by decide)
  · exact claim_C6_amended.2
      [{ email := some "a@b.c", name := some "Bob", department := none,
         approvalLimit := none, activeStatus := none },
       { email := none, name := some "Ghost", department := none,
         approvalLimit := none, activeStatus := none }] _ (by decide)

/-- Claim C7: the slug function is the character-by-character
normalization worded in the specification (trim, lowercase, spaces and
slashes to underscores, ampersand to the word and), and satisfies the two
spec examples. -/
theorem claim_C7_clean_name_slug :
    (∀ s : String, clean_name (some s) = cleanNameSpec s) ∧
    clean_name (some "Finance & Admin") = "finance_and_admin" ∧
    clean_name (some "Head Office") = "head_office" := by
  refine ⟨?_, by decide, by decide⟩
  intro s
  unfold clean_name cleanNameSpec
  exact congrArg String.mk (replace_flatMap _)

/-- Claim C8 counterexample: a workbook with an Approver List sheet but
no Configuration sheet makes the Configuration read raise; that exception
is caught inside get_approval_rules, not at the top level, and the
importer still returns a non-empty result rather than the empty list. -/
theorem claim_C8_counterexample :
    read_approvers_from_excel
        { sheetNames := ["Approver List"],
          approverRows := [{ email := some "a@b.c", name := some "Bob",
                             department := none, approvalLimit := none,
                             activeStatus := none }] } =
      [{ name := "Bob", email := "a@b.c", role := "APPROVER",
         department := none, isActive := true, approvalLimit := .pinf }] ∧
    "Configuration" ∉ (["Approver List"] : List String) ∧
    ([{ name := "Bob", email := "a@b.c", role := "APPROVER",
        department := none, isActive := true,
        approvalLimit := PyF.pinf }] : List Approver) ≠ [] := by
  refine ⟨by decide, by decide, by decide⟩

/-- Claim C8 as amended: a failure to read the Approver List sheet, or a
raised exception while processing its rows, is caught at the top level of
read_approvers_from_excel and yields the empty list; a failure to read
the Configuration sheet is instead absorbed inside get_approval_rules and
does not empty the result. -/
theorem claim_C8_amended :
    (∀ wb : Workbook, "Approver List" ∉ wb.sheetNames →
        read_approvers_from_excel wb = []) ∧
    (∀ (wb : Workbook) (e : Unit), processRows wb.approverRows = .error e →
        read_approvers_from_excel wb = []) := by
  constructor
  · intro wb h
    unfold read_approvers_from_excel readSheetCheck
    simp only [h, if_false]
  · intro wb e h
    unfold read_approvers_from_excel readSheetCheck
    by_cases hs : "Approver List" ∈ wb.sheetNames
    · simp only [hs, if_true]
      rw [h]
    · simp only [hs, if_false]

/-- Claim C8 witness: the amended statement applied to a workbook with no
sheets and to a workbook whose single row raises on its limit text. -/
theorem claim_C8_witness :
    read_approvers_from_excel { sheetNames := [], approverRows := [] } = [] ∧
    read_approvers_from_excel
        { sheetNames := ["Approver List"],
          approverRows := [{ email := some "e@f.g", name := none,
                             department := none,
                             approvalLimit := some "1k-2k",
                             activeStatus := none }] } = [] := by
  constructor
  · exact claim_C8_amended.1 { sheetNames := [], approverRows := [] } (by decide)
  · exact claim_C8_amended.2
      { sheetNames := ["Approver List"],
        approverRows := [{ email := some "e@f.g", name := none,
                           department := none, approvalLimit := some "1k-2k",
                           activeStatus := none }] }
      () (by decide)

/-- Claim C9: on every input whose cleaned text (lowercased, stripped,
commas removed) contains neither k nor m and contains a digit,
parse_approval_limit returns the numeric value of the first maximal
contiguous digit run of that text, ignoring sign, decimal point and later
digits. -/
theorem claim_C9_digit_extraction (raw : String) (ds : List Char)
    (hk : 'k' ∉ limitText raw) (hm : 'm' ∉ limitText raw)
    (hds : findDigitRun (limitText raw) = some ds) :
    parse_approval_limit (some raw) = .ok (.finite (digitsToNat ds)) := by
  rw [parse_limit_no_km raw hk hm, hds]

/-- Claim C9 witness: the digit-extraction rule applied to the concrete
input "-500", whose first digit run is 500 (the sign is ignored). -/
theorem claim_C9_witness :
    parse_approval_limit (some "-500") =
      .ok (.finite (digitsToNat ['5', '0', '0'])) :=
  claim_C9_digit_extraction "-500" ['5', '0', '0']
    (by decide) (by decide) (by decide)

/-- Claim C10: in every entry emitted by one of the seven sheet mappers
of the exporter, isActive is true exactly when the row's active or
approved status cell is the one-character text Y; any other cell value,
blank or absent cell yields false. -/
theorem claim_C10_isActive_iff_Y :
    (∀ (r : SheetRow) (e : RefEntry), mkDepartment r = some e →
        (e.isActive = true ↔ r.active = some "Y")) ∧
    (∀ (r : SheetRow) (e : RefEntry), mkProjectCategory r = some e →
        (e.isActive = true ↔ r.active = some "Y")) ∧
    (∀ (r : SheetRow) (e : RefEntry), mkSite r = some e →
        (e.isActive = true ↔ r.active = some "Y")) ∧
    (∀ (r : SheetRow) (e : RefEntry), mkExpenseType r = some e →
        (e.isActive = true ↔ r.active = some "Y")) ∧
    (∀ (r : SheetRow) (e : RefEntry), mkVehicle r = some e →
        (e.isActive = true ↔ r.active = some "Y")) ∧
    (∀ (r : SheetRow) (e : RefEntry), mkVendor r = some e →
        (e.isActive = true ↔ r.active = some "Y")) ∧
    (∀ (r : SheetRow) (e : RefEntry), mkOrganization r = some e →
        (e.isActive = true ↔ r.active = some "Y")) := by
  refine ⟨?_, ?_, ?_, ?_, ?_, ?_, ?_⟩ <;>
    (intro r e h
     simp only [mkDepartment, mkProjectCategory, mkSite, mkExpenseType,
                mkVehicle, mkVendor, mkOrganization] at h
     cases hn : r.name with
     | none => rw [hn] at h; simp at h
     | some nm =>
       rw [hn] at h
       simp only [Option.some.injEq] at h
       rw [← h]
       simp)

/-- Claim C10 witness: the department mapper applied to a concrete row
whose status cell is exactly Y. -/
theorem claim_C10_witness :
    (({ id := "hr", name := "HR", code := none, registration := none,
        organization := none, isActive := true } : RefEntry).isActive = true ↔
      ({ name := some "HR", code := none, registration := none,
         active := some "Y" } : SheetRow).active = some "Y") :=
  claim_C10_isActive_iff_Y.1
    { name := some "HR", code := none, registration := none,
      active := some "Y" }
    _ (by decide)
